import Mathlib

/-!
A verification development for `static/js/main.js`, the chat-widget script of
the aria-nlp repository.  The script wires DOM events to a single backend
endpoint, renders plain-text or HTML responses into a chat log, and
post-processes HTML responses into selectable "build option" chips.

The embedding below follows the source closely:
* the DOM subtrees handled by `DOMParser` / `querySelector(All)` /
  `textContent` / `outerHTML` are modelled by the mutual inductives
  `Node` / `NodeList`;
* `handleAssistantHtml`, `createBuildChipsArea` and the chip click handler
  are modelled as pure functions over that tree and over explicit
  chips-area states;
* the async `sendQuery` is modelled as a generator of an ordered list of
  DOM/network `UiAction`s, parameterized by the fetch outcome (success with a
  Content-Type header and a body, or failure with an error message), by
  whether the `#q` input element exists, and by whether the chip
  post-processing throws (the inner try/catch);
* the chat log, input field, request list and scroll position are a
  `ChatState` obtained by folding `UiAction`s;
* the event-loop behaviour of repeated submissions is modelled by
  `pendingAfter` over `UiEvent` traces.
-/

mutual

/-- A DOM node: an element with a tag name, its `class` list and children,
or a text node.  Attributes other than `class` play no role in the script
(`querySelectorAll('.build-option')` and `querySelector('h4')` select by
class and by tag only), so they are not represented. -/
inductive Node : Type where
  | text (s : String)
  | element (tag : String) (classes : List String) (children : NodeList)

/-- A list of sibling DOM nodes, in document order. -/
inductive NodeList : Type where
  | nil
  | cons (n : Node) (ns : NodeList)

end

mutual

/-- The `textContent` of a node: concatenation of all text-node data in the
subtree, in document order. -/
def textContent : Node → String
  | .text s => s
  | .element _ _ cs => textContentList cs

/-- The `textContent` data concatenated over a sibling list. -/
def textContentList : NodeList → String
  | .nil => ""
  | .cons n ns => textContent n ++ textContentList ns

end

/-- Serialization of a `class` attribute, empty when the class list is empty. -/
def classAttr (classes : List String) : String :=
  if classes.isEmpty then "" else " class=\"" ++ String.intercalate " " classes ++ "\""

/-- HTML serialization of one text character (the escaping `innerHTML`
serialization performs on text data). -/
def escapeHtmlChar (c : Char) : String :=
  if c = '&' then "&amp;" else if c = '<' then "&lt;" else if c = '>' then "&gt;"
  else String.mk [c]

/-- HTML serialization of text-node data. -/
def escapeHtml (s : String) : String :=
  s.toList.foldl (fun acc c => acc ++ escapeHtmlChar c) ""

/-- The characters `String.prototype.trim` removes: the ECMAScript
WhiteSpace and LineTerminator code points. -/
def jsWhitespaceChar (c : Char) : Bool :=
  c == ' ' || c == '\t' || c == '\n' || c == '\r' ||
  c == Char.ofNat 0x0B || c == Char.ofNat 0x0C || c == Char.ofNat 0xA0 ||
  c == Char.ofNat 0xFEFF || c == Char.ofNat 0x2028 || c == Char.ofNat 0x2029

/-- JavaScript `s.trim()`: strip leading and trailing whitespace. -/
def jsTrim (s : String) : String :=
  String.mk (((s.toList.dropWhile jsWhitespaceChar).reverse.dropWhile
    jsWhitespaceChar).reverse)

/-- JavaScript `s.toLowerCase()` on the ASCII range (the only range the
script applies it to: `Content-Type` header values). -/
def jsToLower (s : String) : String := String.mk (s.toList.map Char.toLower)

mutual

/-- The `outerHTML` serialization of a node. -/
def outerHTML : Node → String
  | .text s => escapeHtml s
  | .element tag classes cs =>
      "<" ++ tag ++ classAttr classes ++ ">" ++ innerHTMLList cs ++ "</" ++ tag ++ ">"

/-- The `innerHTML` serialization of a sibling list. -/
def innerHTMLList : NodeList → String
  | .nil => ""
  | .cons n ns => outerHTML n ++ innerHTMLList ns

end

mutual

/-- All elements of the subtree rooted at a node (the node included) whose
class list contains `cls`, in document (pre-)order. -/
def collectClass (cls : String) : Node → List Node
  | .text _ => []
  | .element tag classes cs =>
      (if classes.contains cls then [Node.element tag classes cs] else []) ++
        collectClassList cls cs

/-- The `collectClass` matches over a sibling list. -/
def collectClassList (cls : String) : NodeList → List Node
  | .nil => []
  | .cons n ns => collectClass cls n ++ collectClassList cls ns

end

/-- The call `ctx.querySelectorAll('.cls')`: all proper descendants of the context
node whose class list contains `cls`, in document order. -/
def querySelectorAllClass (n : Node) (cls : String) : List Node :=
  match n with
  | .text _ => []
  | .element _ _ cs => collectClassList cls cs

mutual

/-- All elements of the subtree rooted at a node (the node included) whose
tag is `tag`, in document (pre-)order. -/
def collectTag (tag : String) : Node → List Node
  | .text _ => []
  | .element t classes cs =>
      (if t == tag then [Node.element t classes cs] else []) ++ collectTagList tag cs

/-- The `collectTag` matches over a sibling list. -/
def collectTagList (tag : String) : NodeList → List Node
  | .nil => []
  | .cons n ns => collectTag tag n ++ collectTagList tag ns

end

/-- The call `ctx.querySelector('tag')`: the first proper descendant of the context
node with the given tag, in document order, if any. -/
def querySelectorTag (n : Node) (tag : String) : Option Node :=
  match n with
  | .text _ => none
  | .element _ _ cs => (collectTagList tag cs).head?

/-- Whether `c` matches the character class `[\d,]` of the price regular expression
(`\d` in a JavaScript regex is `[0-9]`). -/
def isDigitOrComma (c : Char) : Bool := c.isDigit || c == ','

/-- The maximal prefix of a character list drawn from `[\d,]` (the greedy
`[\d,]+` run). -/
def takeRun : List Char → List Char
  | [] => []
  | c :: cs => if isDigitOrComma c then c :: takeRun cs else []

/-- The literal three-character sequence the price regular expression of
`main.js` begins with.  The source file stores, in UTF-8, the characters
U+00E2, U+201A, U+00B1 — the mojibake (UTF-8 bytes of U+20B1 read as
Windows-1252) of the peso sign — so the pattern is `U+00E2 U+201A U+00B1`
followed by `[\d,]+`, not the peso sign itself. -/
def mojiPesoChars : List Char := [Char.ofNat 0xE2, Char.ofNat 0x201A, Char.ofNat 0xB1]

/-- The scan of `headerText.match(/(â‚±[\d,]+)/)`: at each position, try to
match the three literal pattern characters followed by at least one
digit-or-comma, greedily; return the first (leftmost) match. -/
def matchPesoList : List Char → Option (List Char)
  | [] => none
  | c :: cs =>
    match cs with
    | c2 :: c3 :: rest =>
      if c == Char.ofNat 0xE2 && c2 == Char.ofNat 0x201A && c3 == Char.ofNat 0xB1 then
        match rest with
        | d :: _ =>
          if isDigitOrComma d then some (mojiPesoChars ++ takeRun rest)
          else matchPesoList cs
        | [] => matchPesoList cs
      else matchPesoList cs
    | _ => none

/-- The call `headerText.match(/(â‚±[\d,]+)/)` of `main.js`, returning the captured
group of the first match, if any. -/
def matchPeso (s : String) : Option String :=
  (matchPesoList s.toList).map fun l => String.mk l

/-- The separator template `` ` â€” ` `` of `main.js`.  In the source file
it is, in UTF-8, space, U+00E2, U+20AC, U+201D, space — the mojibake of a
space-padded em dash U+2014. -/
def emDashMojiSep : String :=
  String.mk [' ', Char.ofNat 0xE2, Char.ofNat 0x20AC, Char.ofNat 0x201D, ' ']

/-- One build chip: its button label (`chip.textContent`) and the
`outerHTML` of the `.build-option` block it reveals (the closure-captured
`detailHtml`). -/
structure Chip where
  label : String
  detailHtml : String
  deriving DecidableEq, Repr

/-- The hint line appended below the chips row. -/
def hintText : String := "Click a build to reveal details."

/-- The content `handleAssistantHtml` leaves in the assistant message:
either the raw response HTML injected unchanged (`safeInnerHTML`), or a
chips area (chips row plus hint; the details pane starts hidden). -/
inductive AssistantRender : Type where
  | raw (html : String)
  | chips (chipList : List Chip) (hint : String)
  deriving DecidableEq, Repr

/-- The `headerText` of the `idx`-th `.build-option` block: the trimmed
`textContent` of its first `h4` descendant, or `Option ${idx+1}` when the
block has no `h4`. -/
def headerTextOf (idx : Nat) (div : Node) : String :=
  match querySelectorTag div "h4" with
  | some h4 => jsTrim (textContent h4)
  | none => "Option " ++ toString (idx + 1)

/-- The `priceLabel` built from a header text: empty when the price regular
expression does not match, otherwise the separator followed by the first
matched amount. -/
def priceLabelOf (headerText : String) : String :=
  match matchPeso headerText with
  | some m => emDashMojiSep ++ m
  | none => ""

/-- The chip built for the `idx`-th `.build-option` block:
label `Build ${idx+1}${priceLabel}` and detail content the block's
`outerHTML`. -/
def mkChip (idx : Nat) (div : Node) : Chip :=
  { label := "Build " ++ toString (idx + 1) ++ priceLabelOf (headerTextOf idx div),
    detailHtml := outerHTML div }

/-- The `buildDivs.forEach((div, idx) => ...)` loop of `handleAssistantHtml`,
creating one chip per block, in order, starting at index `idx`. -/
def buildChipsFrom (idx : Nat) : List Node → List Chip
  | [] => []
  | d :: ds => mkChip idx d :: buildChipsFrom (idx + 1) ds

/-- The function `handleAssistantHtml(assistantMsg, htmlString)`: parse the response
(`DOMParser` is the abstract `parse` argument), collect the `.build-option`
elements; when none are found inject the raw HTML unchanged, otherwise
build one chip per block plus the hint line. -/
def handleAssistantHtml (parse : String → Node) (htmlString : String) : AssistantRender :=
  let doc := parse htmlString
  let buildDivs := querySelectorAllClass doc "build-option"
  if buildDivs.isEmpty then .raw htmlString
  else .chips (buildChipsFrom 0 buildDivs) hintText

/-- One chip button in the live chips row: its label and whether it carries
the `active` class. -/
structure ChipDom where
  label : String
  active : Bool
  deriving DecidableEq, Repr

/-- One `.build-chips-wrapper` in the live DOM: the chips row, the
closure-captured `detailBlocks` (the `outerHTML` string each chip reveals,
parallel to `chips`), and the details pane's content and visibility
(`display` of `none` versus `block`). -/
structure WrapperDom where
  chips : List ChipDom
  detailBlocks : List String
  detailsContent : String
  detailsVisible : Bool
  deriving DecidableEq, Repr

/-- An assistant message element, viewed as the list of its
`.build-chips-wrapper` children in document order. -/
structure AssistantMsgDom where
  wrappers : List WrapperDom
  deriving DecidableEq, Repr

/-- The freshly created wrapper: empty chips row, empty details pane with
`display: none`. -/
def emptyWrapper : WrapperDom :=
  { chips := [], detailBlocks := [], detailsContent := "", detailsVisible := false }

/-- The function `createBuildChipsArea(assistantMsg)`: `querySelector` finds the first
existing `.build-chips-wrapper`, which is removed if present, and a fresh
wrapper is appended at the end. -/
def createBuildChipsArea (msg : AssistantMsgDom) : AssistantMsgDom :=
  let afterRemove := match msg.wrappers with
    | [] => []
    | _ :: ws => ws
  { wrappers := afterRemove ++ [emptyWrapper] }

/-- The net effect on the chips row of
`chipsRow.querySelectorAll('.build-chip').forEach(c => c.classList.remove('active'))`
followed by `chip.classList.add('active')` on the chip at index `i`: the
chip at position `k + j` in the row ends with the `active` class exactly
when `k + j = i`. -/
def setActiveFrom (i k : Nat) : List ChipDom → List ChipDom
  | [] => []
  | c :: cs => { c with active := k == i } :: setActiveFrom i (k + 1) cs

/-- The chip click handler for the chip at index `i`: every chip in the
row loses the `active` class, the clicked chip gains it, the details pane
receives that chip's captured block HTML and is made visible. -/
def clickChip (w : WrapperDom) (i : Nat) : WrapperDom :=
  { w with
    chips := setActiveFrom i 0 w.chips
    detailsContent := w.detailBlocks.getD i ""
    detailsVisible := true }

/-- The JSON values `JSON.stringify` is applied to in `main.js`: strings
and objects. -/
inductive Json : Type where
  | str (s : String)
  | obj (fields : List (String × Json))

/-- The HTTP request issued by `sendQuery`: URL, method, the
`Content-Type` request header, and the JSON body (the object literal
`{ query }` passed to `JSON.stringify`). -/
structure HttpRequest where
  url : String
  method : String
  contentTypeHeader : String
  body : Json

/-- The request `fetch('/api/check-compatibility', ...)` issues for a
query string `q`. -/
def theRequest (q : String) : HttpRequest :=
  { url := "/api/check-compatibility"
    method := "POST"
    contentTypeHeader := "application/json"
    body := Json.obj [("query", Json.str q)] }

/-- A chat-log message: a user message, an assistant message rendered with
`textContent` (plain text), or an assistant message rendered with
`innerHTML` (the HTML branch, carrying its `AssistantRender`). -/
inductive ChatMsg : Type where
  | user (text : String)
  | ariaText (text : String)
  | ariaHtml (render : AssistantRender)
  deriving DecidableEq, Repr

/-- The placeholder text appended while the request is pending. -/
def thinkingText : String := "Thinking..."

/-- One observable step of `sendQuery`: appending a chat message (tagged
with a fresh node identity), removing an appended message by identity,
clearing the input, issuing the HTTP request, or scrolling the chat log to
the bottom. -/
inductive UiAction : Type where
  | append (id : Nat) (m : ChatMsg)
  | removeMsg (id : Nat)
  | clearInput
  | post (r : HttpRequest)
  | scrollBottom

/-- How the awaited `fetch`/`res.text()` settles: success carries the
response's `Content-Type` header (absent modelled as `none`) and the body
text; failure carries the thrown error's `message`. -/
inductive FetchOutcome : Type where
  | success (contentType : Option String) (body : String)
  | failure (errMessage : String)

/-- Whether `needle` occurs as a contiguous run inside `hay`
(JavaScript `String.prototype.includes`). -/
def listIncludes (needle : List Char) : List Char → Bool
  | [] => needle.isEmpty
  | c :: rest => needle.isPrefixOf (c :: rest) || listIncludes needle rest

/-- JavaScript substring containment `s.includes(sub)`. -/
def strIncludes (s sub : String) : Bool := listIncludes sub.toList s.toList

/-- The guard `if (!query || !query.trim()) return;` of `sendQuery`:
`none` models `null`/`undefined`, and a string is rejected when it is
empty or trims to empty. -/
def queryRejected (q : Option String) : Bool :=
  match q with
  | none => true
  | some s => s == "" || jsTrim s == ""

/-- The ordered list of observable steps of one `sendQuery(query)` call,
given the starting fresh node identity `n0`, the HTML parser, whether the
`#q` input element exists, whether `handleAssistantHtml` throws (the inner
try/catch), the query argument, and how the fetch settles.  It follows the
source line by line: the guard, `appendMessage('user', ...)` (which itself
scrolls), the input clearing, the explicit scroll, the `Thinking...`
placeholder, the `fetch`, then on resumption the placeholder removal and
the branch on `Content-Type`, and the `finally` scroll. -/
def sendQueryTrace (n0 : Nat) (parse : String → Node) (inputPresent : Bool)
    (htmlThrows : Bool) (query : Option String) (outcome : FetchOutcome) :
    List UiAction :=
  match query with
  | none => []
  | some q =>
    if q == "" || jsTrim q == "" then []
    else
      [UiAction.append n0 (ChatMsg.user q), UiAction.scrollBottom] ++
      (if inputPresent then [UiAction.clearInput] else []) ++
      [UiAction.scrollBottom,
       UiAction.append (n0 + 1) (ChatMsg.ariaText thinkingText), UiAction.scrollBottom,
       UiAction.post (theRequest q)] ++
      (match outcome with
       | .success ct body =>
         let ctLower := jsToLower (ct.getD "")
         [UiAction.removeMsg (n0 + 1)] ++
         (if strIncludes ctLower "text/html" then
            [UiAction.append (n0 + 2) (ChatMsg.ariaHtml
               (if htmlThrows then AssistantRender.raw body
                else handleAssistantHtml parse body)),
             UiAction.scrollBottom]
          else
            [UiAction.append (n0 + 2) (ChatMsg.ariaText body), UiAction.scrollBottom])
       | .failure m =>
         [UiAction.removeMsg (n0 + 1),
          UiAction.append (n0 + 2) (ChatMsg.ariaText ("Request failed: " ++ m)),
          UiAction.scrollBottom]) ++
      [UiAction.scrollBottom]

/-- The DOM state the actions act on: the chat log (messages with their
node identities, in document order), the textarea value, the requests
issued so far, and whether the chat log is scrolled to the bottom. -/
structure ChatState where
  msgs : List (Nat × ChatMsg)
  input : String
  requests : List HttpRequest
  scrolledToBottom : Bool

/-- The effect of one action on the DOM state.  Appending may leave the
log scrolled away from the bottom; `chatBox.scrollTop = chatBox.scrollHeight`
restores it. -/
def applyAction (s : ChatState) (a : UiAction) : ChatState :=
  match a with
  | .append i m => { s with msgs := s.msgs ++ [(i, m)], scrolledToBottom := false }
  | .removeMsg i => { s with msgs := s.msgs.filter fun p => p.1 != i }
  | .clearInput => { s with input := "" }
  | .post r => { s with requests := s.requests ++ [r] }
  | .scrollBottom => { s with scrolledToBottom := true }

/-- Folding a whole action list over a starting DOM state. -/
def runActions (s : ChatState) (tr : List UiAction) : ChatState :=
  tr.foldl applyAction s

/-- The requests issued in an action list, in order. -/
def postsOf (tr : List UiAction) : List HttpRequest :=
  tr.filterMap fun a =>
    match a with
    | .post r => some r
    | _ => none

/-- The messages appended in an action list, in order. -/
def appendsOf (tr : List UiAction) : List (Nat × ChatMsg) :=
  tr.filterMap fun a =>
    match a with
    | .append i m => some (i, m)
    | _ => none

/-- The click handler of the ask button: `sendQuery(input ? input.value : '')`. -/
def btnClickTrace (n0 : Nat) (parse : String → Node) (inputPresent : Bool)
    (htmlThrows : Bool) (inputValue : String) (outcome : FetchOutcome) :
    List UiAction :=
  sendQueryTrace n0 parse inputPresent htmlThrows
    (some (if inputPresent then inputValue else "")) outcome

/-- The keydown handler of the textarea (registered only when the input
element exists): on `Enter` without `Shift` it calls `sendQuery(input.value)`;
any other key does nothing. -/
def keydownTrace (n0 : Nat) (parse : String → Node) (htmlThrows : Bool)
    (key : String) (shiftKey : Bool) (inputValue : String)
    (outcome : FetchOutcome) : List UiAction :=
  if key == "Enter" && !shiftKey then
    sendQueryTrace n0 parse true htmlThrows (some inputValue) outcome
  else []

/-- The click handler of a suggestion chip: `sendQuery(btnEl.textContent)`. -/
def suggestClickTrace (n0 : Nat) (parse : String → Node) (inputPresent : Bool)
    (htmlThrows : Bool) (labelText : String) (outcome : FetchOutcome) :
    List UiAction :=
  sendQueryTrace n0 parse inputPresent htmlThrows (some labelText) outcome

/-- Whether `sendQuery(q)` reaches the `fetch` call: exactly when the guard
`if (!query || !query.trim()) return;` does not fire. -/
def startsRequest (q : String) : Bool := !(q == "" || jsTrim q == "")

/-- An event processed by the page's event loop, as far as requests are
concerned: a submission (ask-button click, Enter keydown, or
suggestion-chip click — each runs the synchronous prefix of `sendQuery`,
which issues the `fetch` before suspending), or the settlement of one
pending `fetch` (which runs the rest of that `sendQuery` call).  No
listener consults any pending-request state before calling `sendQuery`. -/
inductive UiEvent : Type where
  | submit (q : String)
  | complete

/-- The number of in-flight requests after processing the events, starting
from `p` in flight: a submission adds one exactly when its query passes the
guard, a settlement retires one. -/
def pendingAfter : Nat → List UiEvent → Nat
  | p, [] => p
  | p, .submit q :: es => pendingAfter (p + (if startsRequest q then 1 else 0)) es
  | p, .complete :: es => pendingAfter (p - 1) es

/-- An event list is valid from `p` in flight when every settlement retires
a request that is actually in flight. -/
def validFrom : Nat → List UiEvent → Bool
  | _, [] => true
  | p, .submit q :: es => validFrom (p + (if startsRequest q then 1 else 0)) es
  | p, .complete :: es => decide (0 < p) && validFrom (p - 1) es

/-- The number of submissions in an event list that pass the guard. -/
def countStarts : List UiEvent → Nat
  | [] => 0
  | .submit q :: es => (if startsRequest q then 1 else 0) + countStarts es
  | .complete :: es => countStarts es

/-- The number of fetch settlements in an event list. -/
def countCompletes : List UiEvent → Nat
  | [] => 0
  | .submit _ :: es => countCompletes es
  | .complete :: es => 1 + countCompletes es

/-- The assistant message that ends up in the chat log once the fetch
settles: the error text on failure; on success, the HTML rendering (or the
raw body when chip processing throws) under a `text/html` Content-Type,
and the plain body otherwise. -/
def finalAssistantMsg (parse : String → Node) (htmlThrows : Bool)
    (outcome : FetchOutcome) : ChatMsg :=
  match outcome with
  | .success ct body =>
    if strIncludes (jsToLower (ct.getD "")) "text/html" then
      ChatMsg.ariaHtml
        (if htmlThrows then AssistantRender.raw body else handleAssistantHtml parse body)
    else ChatMsg.ariaText body
  | .failure m => ChatMsg.ariaText ("Request failed: " ++ m)

theorem postsOf_append (a b : List UiAction) :
    postsOf (a ++ b) = postsOf a ++ postsOf b := by
  simp [postsOf, List.filterMap_append]

/-- A guarded `sendQuery` call issues exactly the one request `theRequest q`,
whatever the parser, the input element, the inner try/catch and the fetch
outcome. -/
theorem postsOf_sendQueryTrace (n0 : Nat) (parse : String → Node)
    (ip th : Bool) (q : String) (oc : FetchOutcome)
    (hq : (q == "" || jsTrim q == "") = false) :
    postsOf (sendQueryTrace n0 parse ip th (some q) oc) = [theRequest q] := by
  cases oc with
  | success ct body =>
    by_cases hct : strIncludes (jsToLower (ct.getD "")) "text/html" = true <;>
      cases ip <;>
        simp [sendQueryTrace, hq, postsOf, List.filterMap_append, hct]
  | failure m =>
    cases ip <;> simp [sendQueryTrace, hq, postsOf, List.filterMap_append]

theorem runActions_sendQueryTrace (n0 : Nat) (parse : String → Node)
    (ip th : Bool) (q : String) (oc : FetchOutcome) (s0 : ChatState)
    (hq : (q == "" || jsTrim q == "") = false)
    (hfresh : ∀ p ∈ s0.msgs, p.1 < n0) :
    runActions s0 (sendQueryTrace n0 parse ip th (some q) oc) =
      { msgs := s0.msgs ++ [(n0, ChatMsg.user q), (n0 + 2, finalAssistantMsg parse th oc)]
        input := if ip then "" else s0.input
        requests := s0.requests ++ [theRequest q]
        scrolledToBottom := true } := by
  have hfilter : ((s0.msgs ++ [(n0, ChatMsg.user q), (n0 + 1, ChatMsg.ariaText thinkingText)]).filter
      fun p => p.1 != n0 + 1) = s0.msgs ++ [(n0, ChatMsg.user q)] := by
    rw [List.filter_append]
    have h1 : (s0.msgs.filter fun p => p.1 != n0 + 1) = s0.msgs := by
      apply List.filter_eq_self.mpr
      intro p hp
      have := hfresh p hp
      simp only [bne_iff_ne, ne_eq]
      omega
    have h2 : (([(n0, ChatMsg.user q), (n0 + 1, ChatMsg.ariaText thinkingText)] :
        List (Nat × ChatMsg)).filter fun p => p.1 != n0 + 1) = [(n0, ChatMsg.user q)] := by
      have hne : (n0 != n0 + 1) = true := by
        simp only [bne_iff_ne, ne_eq]
        omega
      simp [List.filter, hne]
    rw [h1, h2]
  cases oc with
  | success ct body =>
    by_cases hct : strIncludes (jsToLower (ct.getD "")) "text/html" = true <;>
      cases ip <;>
        simp [sendQueryTrace, hq, runActions, applyAction, List.foldl_append,
          finalAssistantMsg, hct, hfilter]
  | failure m =>
    cases ip <;>
      simp [sendQueryTrace, hq, runActions, applyAction, List.foldl_append,
        finalAssistantMsg, hfilter]

/-- A trivial parser used to instantiate theorems at concrete inputs. -/
def parseNone : String → Node := fun _ => Node.text ""

/-- A concrete starting DOM state with an empty chat log. -/
def initState : ChatState :=
  { msgs := [], input := "pc build", requests := [], scrolledToBottom := false }

/-- C8: a `sendQuery` call whose argument is `null`/`undefined`, empty, or
whitespace-only is a no-op: it produces no actions at all, so no message is
appended, the input is not cleared, and no request is issued. -/
theorem c8_blank_query_noop (n0 : Nat) (parse : String → Node) (ip th : Bool)
    (q : Option String) (oc : FetchOutcome) (s0 : ChatState)
    (hq : queryRejected q = true) :
    sendQueryTrace n0 parse ip th q oc = [] ∧
      runActions s0 (sendQueryTrace n0 parse ip th q oc) = s0 := by
  cases q with
  | none => simp [sendQueryTrace, runActions]
  | some s =>
    have hs : (s == "" || jsTrim s == "") = true := hq
    simp [sendQueryTrace, hs, runActions]

/-- Witness for C8 at the whitespace query `"   "`. -/
theorem c8_blank_query_noop_holds :
    sendQueryTrace 0 parseNone true false (some "   ") (FetchOutcome.failure "boom") = [] ∧
      runActions initState
        (sendQueryTrace 0 parseNone true false (some "   ") (FetchOutcome.failure "boom")) =
        initState :=
  c8_blank_query_noop 0 parseNone true false (some "   ") (FetchOutcome.failure "boom")
    initState (by decide)

/-- C1: every query submission — ask-button click, Enter keydown in the
textarea, or suggestion-chip click — issues exactly one HTTP POST to
`/api/check-compatibility`, with request header Content-Type
`application/json` and JSON body `{"query": <the query string>}`. -/
theorem c1_every_submission_posts_once (n0 : Nat) (parse : String → Node)
    (ip th : Bool) (v : String) (oc : FetchOutcome)
    (hv : (v == "" || jsTrim v == "") = false) :
    postsOf (btnClickTrace n0 parse true th v oc) =
        [{ url := "/api/check-compatibility", method := "POST",
           contentTypeHeader := "application/json",
           body := Json.obj [("query", Json.str v)] }] ∧
      postsOf (keydownTrace n0 parse th "Enter" false v oc) =
        [{ url := "/api/check-compatibility", method := "POST",
           contentTypeHeader := "application/json",
           body := Json.obj [("query", Json.str v)] }] ∧
      postsOf (suggestClickTrace n0 parse ip th v oc) =
        [{ url := "/api/check-compatibility", method := "POST",
           contentTypeHeader := "application/json",
           body := Json.obj [("query", Json.str v)] }] := by
  have h1 := postsOf_sendQueryTrace n0 parse true th v oc hv
  have h2 := postsOf_sendQueryTrace n0 parse ip th v oc hv
  refine ⟨?_, ?_, ?_⟩
  · simpa [btnClickTrace, theRequest] using h1
  · simpa [keydownTrace, theRequest] using h1
  · simpa [suggestClickTrace, theRequest] using h2

/-- Witness for C1 at the query `"budget pc"`. -/
theorem c1_every_submission_posts_once_holds :
    postsOf (btnClickTrace 0 parseNone true false "budget pc" (FetchOutcome.failure "x")) =
        [{ url := "/api/check-compatibility", method := "POST",
           contentTypeHeader := "application/json",
           body := Json.obj [("query", Json.str "budget pc")] }] ∧
      postsOf (keydownTrace 0 parseNone false "Enter" false "budget pc"
          (FetchOutcome.failure "x")) =
        [{ url := "/api/check-compatibility", method := "POST",
           contentTypeHeader := "application/json",
           body := Json.obj [("query", Json.str "budget pc")] }] ∧
      postsOf (suggestClickTrace 0 parseNone true false "budget pc"
          (FetchOutcome.failure "x")) =
        [{ url := "/api/check-compatibility", method := "POST",
           contentTypeHeader := "application/json",
           body := Json.obj [("query", Json.str "budget pc")] }] :=
  c1_every_submission_posts_once 0 parseNone true false "budget pc"
    (FetchOutcome.failure "x") (by decide)

/-- C6: when the fetch fails, the `Thinking...` placeholder is removed and
the only new assistant message is `Request failed: ` concatenated with the
error's message; exactly one request was issued (no retry), and the chat
log ends scrolled to the bottom. -/
theorem c6_failure_appends_error_only (n0 : Nat) (parse : String → Node)
    (ip th : Bool) (q m : String) (s0 : ChatState)
    (hq : (q == "" || jsTrim q == "") = false)
    (hfresh : ∀ p ∈ s0.msgs, p.1 < n0) :
    postsOf (sendQueryTrace n0 parse ip th (some q) (FetchOutcome.failure m)) =
        [theRequest q] ∧
      (runActions s0 (sendQueryTrace n0 parse ip th (some q)
          (FetchOutcome.failure m))).msgs =
        s0.msgs ++ [(n0, ChatMsg.user q),
          (n0 + 2, ChatMsg.ariaText ("Request failed: " ++ m))] ∧
      (runActions s0 (sendQueryTrace n0 parse ip th (some q)
          (FetchOutcome.failure m))).requests = s0.requests ++ [theRequest q] ∧
      (runActions s0 (sendQueryTrace n0 parse ip th (some q)
          (FetchOutcome.failure m))).scrolledToBottom = true := by
  have hr := runActions_sendQueryTrace n0 parse ip th q (FetchOutcome.failure m) s0 hq hfresh
  refine ⟨postsOf_sendQueryTrace n0 parse ip th q _ hq, ?_, ?_, ?_⟩ <;>
    simp [hr, finalAssistantMsg]

/-- Witness for C6 at the query `"pc"` and error message `"NetworkError"`. -/
theorem c6_failure_appends_error_only_holds :
    postsOf (sendQueryTrace 0 parseNone true false (some "pc")
        (FetchOutcome.failure "NetworkError")) = [theRequest "pc"] ∧
      (runActions initState (sendQueryTrace 0 parseNone true false (some "pc")
          (FetchOutcome.failure "NetworkError"))).msgs =
        initState.msgs ++ [(0, ChatMsg.user "pc"),
          (2, ChatMsg.ariaText ("Request failed: " ++ "NetworkError"))] ∧
      (runActions initState (sendQueryTrace 0 parseNone true false (some "pc")
          (FetchOutcome.failure "NetworkError"))).requests =
        initState.requests ++ [theRequest "pc"] ∧
      (runActions initState (sendQueryTrace 0 parseNone true false (some "pc")
          (FetchOutcome.failure "NetworkError"))).scrolledToBottom = true :=
  c6_failure_appends_error_only 0 parseNone true false "pc" "NetworkError" initState
    (by decide) (by simp [initState])

/-- C2: on a successful fetch, a Content-Type containing `text/html`
case-insensitively (the code lowercases the header and tests `includes`)
makes `sendQuery` render the body as HTML into a new assistant message
through the `handleAssistantHtml` chip post-processing; any other
Content-Type appends the body as a plain-text message. -/
theorem c2_content_type_dispatch (n0 : Nat) (parse : String → Node)
    (ip : Bool) (q : String) (ct : Option String) (body : String)
    (s0 : ChatState)
    (hq : (q == "" || jsTrim q == "") = false)
    (hfresh : ∀ p ∈ s0.msgs, p.1 < n0) :
    (strIncludes (jsToLower (ct.getD "")) "text/html" = true →
       (runActions s0 (sendQueryTrace n0 parse ip false (some q)
           (FetchOutcome.success ct body))).msgs =
         s0.msgs ++ [(n0, ChatMsg.user q),
           (n0 + 2, ChatMsg.ariaHtml (handleAssistantHtml parse body))]) ∧
    (strIncludes (jsToLower (ct.getD "")) "text/html" = false →
       (runActions s0 (sendQueryTrace n0 parse ip false (some q)
           (FetchOutcome.success ct body))).msgs =
         s0.msgs ++ [(n0, ChatMsg.user q), (n0 + 2, ChatMsg.ariaText body)]) := by
  have hr := runActions_sendQueryTrace n0 parse ip false q
    (FetchOutcome.success ct body) s0 hq hfresh
  constructor <;> intro hct <;> rw [hr] <;> simp [finalAssistantMsg, hct]

/-- Witness for C2 at an uppercase `TEXT/HTML` header and at a
`text/plain` header. -/
theorem c2_content_type_dispatch_holds :
    ((runActions initState (sendQueryTrace 0 parseNone true false (some "pc")
        (FetchOutcome.success (some "TEXT/HTML; charset=utf-8") "<p>hi</p>"))).msgs =
      initState.msgs ++ [(0, ChatMsg.user "pc"),
        (2, ChatMsg.ariaHtml (handleAssistantHtml parseNone "<p>hi</p>"))]) ∧
    ((runActions initState (sendQueryTrace 0 parseNone true false (some "pc")
        (FetchOutcome.success (some "text/plain") "hello"))).msgs =
      initState.msgs ++ [(0, ChatMsg.user "pc"), (2, ChatMsg.ariaText "hello")]) := by
  constructor
  · exact (c2_content_type_dispatch 0 parseNone true "pc"
      (some "TEXT/HTML; charset=utf-8") "<p>hi</p>" initState (by decide)
      (by simp [initState])).1 (by decide)
  · exact (c2_content_type_dispatch 0 parseNone true "pc"
      (some "text/plain") "hello" initState (by decide)
      (by simp [initState])).2 (by decide)

theorem buildChipsFrom_length (k : Nat) (ds : List Node) :
    (buildChipsFrom k ds).length = ds.length := by
  induction ds generalizing k with
  | nil => rfl
  | cons d ds ih => simp [buildChipsFrom, ih]

theorem buildChipsFrom_getElem? (k : Nat) (ds : List Node) (i : Nat) :
    (buildChipsFrom k ds)[i]? = (ds[i]?).map fun d => mkChip (k + i) d := by
  induction ds generalizing k i with
  | nil => simp [buildChipsFrom]
  | cons d ds ih =>
    cases i with
    | zero => simp [buildChipsFrom]
    | succ j =>
      simp only [buildChipsFrom, List.getElem?_cons_succ, ih]
      have : k + (j + 1) = k + 1 + j := by omega
      rw [this]

/-- C3: when the parsed response contains `n ≥ 1` `.build-option` elements,
`handleAssistantHtml` produces the chips rendering with exactly `n` chips,
one per block in document order (`querySelectorAllClass` lists matches in
pre-order); the `i`-th chip stores the `i`-th block's `outerHTML` as its
detail content, and its header text is the trimmed `textContent` of the
block's first `h4`, or the default `Option i+1` when the block has no
`h4`. -/
theorem c3_one_chip_per_block (parse : String → Node) (html : String)
    (hn : (querySelectorAllClass (parse html) "build-option").isEmpty = false) :
    handleAssistantHtml parse html =
        AssistantRender.chips
          (buildChipsFrom 0 (querySelectorAllClass (parse html) "build-option"))
          hintText ∧
      (buildChipsFrom 0 (querySelectorAllClass (parse html) "build-option")).length =
        (querySelectorAllClass (parse html) "build-option").length ∧
      (∀ i : Nat,
        (buildChipsFrom 0 (querySelectorAllClass (parse html) "build-option"))[i]? =
          ((querySelectorAllClass (parse html) "build-option")[i]?).map
            fun d => mkChip i d) ∧
      (∀ (i : Nat) (d : Node), (mkChip i d).detailHtml = outerHTML d) ∧
      (∀ (i : Nat) (d h4 : Node), querySelectorTag d "h4" = some h4 →
        headerTextOf i d = jsTrim (textContent h4)) ∧
      (∀ (i : Nat) (d : Node), querySelectorTag d "h4" = none →
        headerTextOf i d = "Option " ++ toString (i + 1)) := by
  refine ⟨?_, buildChipsFrom_length 0 _, ?_, ?_, ?_, ?_⟩
  · simp [handleAssistantHtml, hn]
  · intro i
    simpa using buildChipsFrom_getElem? 0 _ i
  · intro i d
    rfl
  · intro i d h4 hh
    simp [headerTextOf, hh]
  · intro i d hh
    simp [headerTextOf, hh]

/-- A concrete parsed response with two `.build-option` blocks, the first
with an `h4` header and the second without one. -/
def exBuildDoc : Node :=
  Node.element "html" [] (NodeList.cons
    (Node.element "div" ["build-option"] (NodeList.cons
      (Node.element "h4" [] (NodeList.cons (Node.text "Build A") NodeList.nil))
      NodeList.nil))
    (NodeList.cons (Node.element "div" ["build-option"] NodeList.nil) NodeList.nil))

/-- The parser returning `exBuildDoc` for every input. -/
def exBuildParse : String → Node := fun _ => exBuildDoc

/-- Witness for C3 at `exBuildDoc`: two chips, in document order, the
first labelled from its `h4`, the second with the default header, each
storing its block's `outerHTML`. -/
theorem c3_one_chip_per_block_holds :
    handleAssistantHtml exBuildParse "resp" =
      AssistantRender.chips
        [{ label := "Build 1",
           detailHtml := "<div class=\"build-option\"><h4>Build A</h4></div>" },
         { label := "Build 2", detailHtml := "<div class=\"build-option\"></div>" }]
        hintText := by
  have h := (c3_one_chip_per_block exBuildParse "resp" rfl).1
  rw [h]
  rfl

/-- The header text a server talking about the price `45,000` in pesos
would produce, written with the real peso sign U+20B1. -/
def realPesoHeader : String :=
  "Gaming Build " ++ String.mk [Char.ofNat 0x20B1] ++ "45,000"

/-- The same header text after the double-encoding corruption present in
`main.js` itself: the peso sign replaced by U+00E2 U+201A U+00B1. -/
def mojiPesoHeader : String :=
  "Gaming Build " ++ String.mk mojiPesoChars ++ "45,000"

/-- A `.build-option` block whose `h4` header carries the real peso sign. -/
def realPesoBlock : Node :=
  Node.element "div" ["build-option"] (NodeList.cons
    (Node.element "h4" [] (NodeList.cons (Node.text realPesoHeader) NodeList.nil))
    NodeList.nil)

/-- A `.build-option` block whose `h4` header carries the mojibake bytes. -/
def mojiPesoBlock : Node :=
  Node.element "div" ["build-option"] (NodeList.cons
    (Node.element "h4" [] (NodeList.cons (Node.text mojiPesoHeader) NodeList.nil))
    NodeList.nil)

/-- C4, evaluated at the failing input: the price regular expression of
`main.js` is the mojibake sequence U+00E2 U+201A U+00B1 followed by
`[\d,]+`, not a peso sign followed by digits and commas.  A header text
containing the real peso sign U+20B1 does not match, so its chip label is
the bare `Build 1` with no price; and when the mojibake pattern does
match, the appended separator is space U+00E2 U+20AC U+201D space — the
mojibake of an em dash, not an em dash. -/
theorem c4_price_label_mojibake :
    matchPeso realPesoHeader = none ∧
      (mkChip 0 realPesoBlock).label = "Build 1" ∧
      matchPeso mojiPesoHeader =
        some (String.mk (mojiPesoChars ++ ['4', '5', ',', '0', '0', '0'])) ∧
      (mkChip 0 mojiPesoBlock).label =
        "Build 1" ++ emDashMojiSep ++
          String.mk (mojiPesoChars ++ ['4', '5', ',', '0', '0', '0']) := by
  refine ⟨by decide, by decide, by decide, by decide⟩

/-- C5: when the parsed response contains no `.build-option` element,
`handleAssistantHtml` injects the raw response HTML unchanged (the
`AssistantRender.raw` constructor carries no chips row, details pane or
hint); and when chip processing throws, the catch block of `sendQuery`
likewise leaves the raw response HTML as the assistant message's
content. -/
theorem c5_raw_html_fallback (parse : String → Node) (html : String)
    (n0 : Nat) (ip : Bool) (q : String) (ct : Option String) (body : String)
    (s0 : ChatState)
    (h0 : (querySelectorAllClass (parse html) "build-option").isEmpty = true)
    (hq : (q == "" || jsTrim q == "") = false)
    (hct : strIncludes (jsToLower (ct.getD "")) "text/html" = true)
    (hfresh : ∀ p ∈ s0.msgs, p.1 < n0) :
    handleAssistantHtml parse html = AssistantRender.raw html ∧
      (runActions s0 (sendQueryTrace n0 parse ip true (some q)
          (FetchOutcome.success ct body))).msgs =
        s0.msgs ++ [(n0, ChatMsg.user q),
          (n0 + 2, ChatMsg.ariaHtml (AssistantRender.raw body))] := by
  constructor
  · simp [handleAssistantHtml, h0]
  · have hr := runActions_sendQueryTrace n0 parse ip true q
      (FetchOutcome.success ct body) s0 hq hfresh
    simp [hr, finalAssistantMsg, hct]

/-- Witness for C5 at a chip-free parse and a throwing processing pass. -/
theorem c5_raw_html_fallback_holds :
    handleAssistantHtml parseNone "<p>no builds</p>" =
        AssistantRender.raw "<p>no builds</p>" ∧
      (runActions initState (sendQueryTrace 0 parseNone true true (some "pc")
          (FetchOutcome.success (some "text/html") "<p>boom</p>"))).msgs =
        initState.msgs ++ [(0, ChatMsg.user "pc"),
          (2, ChatMsg.ariaHtml (AssistantRender.raw "<p>boom</p>"))] :=
  c5_raw_html_fallback parseNone "<p>no builds</p>" 0 true "pc"
    (some "text/html") "<p>boom</p>" initState rfl (by decide) (by decide)
    (by simp [initState])

/-- C9: for every guarded query, on both the success and the failure path,
the trace removes the `Thinking...` placeholder (the message appended with
identity `n0 + 1`) strictly before appending the final assistant message
(identity `n0 + 2`), and after the call no message with the placeholder's
identity remains in the chat log. -/
theorem c9_thinking_removed_before_final (n0 : Nat) (parse : String → Node)
    (ip th : Bool) (q : String) (oc : FetchOutcome) (s0 : ChatState)
    (hq : (q == "" || jsTrim q == "") = false)
    (hfresh : ∀ p ∈ s0.msgs, p.1 < n0) :
    (∃ pre suf, sendQueryTrace n0 parse ip th (some q) oc =
        pre ++ UiAction.removeMsg (n0 + 1) :: suf ∧
        (n0 + 1, ChatMsg.ariaText thinkingText) ∈ appendsOf pre ∧
        ∃ m s1 s2, suf = s1 ++ UiAction.append (n0 + 2) m :: s2) ∧
      ∀ p ∈ (runActions s0 (sendQueryTrace n0 parse ip th (some q) oc)).msgs,
        p.1 ≠ n0 + 1 := by
  constructor
  · have hpre : (n0 + 1, ChatMsg.ariaText thinkingText) ∈ appendsOf
        ([UiAction.append n0 (ChatMsg.user q), UiAction.scrollBottom] ++
          (if ip then [UiAction.clearInput] else []) ++
          [UiAction.scrollBottom,
           UiAction.append (n0 + 1) (ChatMsg.ariaText thinkingText),
           UiAction.scrollBottom, UiAction.post (theRequest q)]) := by
      cases ip <;> simp [appendsOf]
    cases oc with
    | success ct body =>
      by_cases hct : strIncludes (jsToLower (ct.getD "")) "text/html" = true
      · refine ⟨[UiAction.append n0 (ChatMsg.user q), UiAction.scrollBottom] ++
            (if ip then [UiAction.clearInput] else []) ++
            [UiAction.scrollBottom,
             UiAction.append (n0 + 1) (ChatMsg.ariaText thinkingText),
             UiAction.scrollBottom, UiAction.post (theRequest q)],
          [UiAction.append (n0 + 2) (ChatMsg.ariaHtml
             (if th then AssistantRender.raw body else handleAssistantHtml parse body)),
           UiAction.scrollBottom, UiAction.scrollBottom],
          ?_, hpre, ChatMsg.ariaHtml
             (if th then AssistantRender.raw body else handleAssistantHtml parse body),
          [], [UiAction.scrollBottom, UiAction.scrollBottom], rfl⟩
        cases ip <;> simp [sendQueryTrace, hq, hct]
      · refine ⟨[UiAction.append n0 (ChatMsg.user q), UiAction.scrollBottom] ++
            (if ip then [UiAction.clearInput] else []) ++
            [UiAction.scrollBottom,
             UiAction.append (n0 + 1) (ChatMsg.ariaText thinkingText),
             UiAction.scrollBottom, UiAction.post (theRequest q)],
          [UiAction.append (n0 + 2) (ChatMsg.ariaText body),
           UiAction.scrollBottom, UiAction.scrollBottom],
          ?_, hpre, ChatMsg.ariaText body,
          [], [UiAction.scrollBottom, UiAction.scrollBottom], rfl⟩
        cases ip <;> simp [sendQueryTrace, hq, hct]
    | failure m =>
      refine ⟨[UiAction.append n0 (ChatMsg.user q), UiAction.scrollBottom] ++
          (if ip then [UiAction.clearInput] else []) ++
          [UiAction.scrollBottom,
           UiAction.append (n0 + 1) (ChatMsg.ariaText thinkingText),
           UiAction.scrollBottom, UiAction.post (theRequest q)],
        [UiAction.append (n0 + 2) (ChatMsg.ariaText ("Request failed: " ++ m)),
         UiAction.scrollBottom, UiAction.scrollBottom],
        ?_, hpre, ChatMsg.ariaText ("Request failed: " ++ m),
        [], [UiAction.scrollBottom, UiAction.scrollBottom], rfl⟩
      cases ip <;> simp [sendQueryTrace, hq]
  · have hr := runActions_sendQueryTrace n0 parse ip th q oc s0 hq hfresh
    rw [hr]
    intro p hp
    simp only [List.mem_append, List.mem_cons, List.not_mem_nil, or_false] at hp
    rcases hp with hp | hp | hp
    · have := hfresh p hp
      omega
    · rw [hp]
      show n0 ≠ n0 + 1
      omega
    · rw [hp]
      show n0 + 2 ≠ n0 + 1
      omega

/-- Witness for C9 on the failure path at query `"pc"`. -/
theorem c9_thinking_removed_before_final_holds :
    (∃ pre suf, sendQueryTrace 0 parseNone true false (some "pc")
        (FetchOutcome.failure "x") =
        pre ++ UiAction.removeMsg (0 + 1) :: suf ∧
        (0 + 1, ChatMsg.ariaText thinkingText) ∈ appendsOf pre ∧
        ∃ m s1 s2, suf = s1 ++ UiAction.append (0 + 2) m :: s2) ∧
      ∀ p ∈ (runActions initState (sendQueryTrace 0 parseNone true false
          (some "pc") (FetchOutcome.failure "x"))).msgs,
        p.1 ≠ 0 + 1 :=
  c9_thinking_removed_before_final 0 parseNone true false "pc"
    (FetchOutcome.failure "x") initState (by decide) (by simp [initState])

theorem setActiveFrom_not_active (i : Nat) (cs : List ChipDom) :
    ∀ k, i < k → ∀ a ∈ setActiveFrom i k cs, a.active = false := by
  induction cs with
  | nil =>
    intro k _ a ha
    simp [setActiveFrom] at ha
  | cons c cs ih =>
    intro k hik a ha
    simp only [setActiveFrom, List.mem_cons] at ha
    rcases ha with ha | ha
    · subst ha
      have hb : (k == i) = false := by
        simp only [beq_eq_false_iff_ne, ne_eq]
        omega
      simp [hb]
    · exact ih (k + 1) (by omega) a ha

theorem setActiveFrom_filter_one (i : Nat) (cs : List ChipDom) :
    ∀ k, k ≤ i → i < k + cs.length →
      ((setActiveFrom i k cs).filter (fun c => c.active)).length = 1 := by
  induction cs with
  | nil =>
    intro k h1 h2
    simp at h2
    omega
  | cons c cs ih =>
    intro k h1 h2
    by_cases hk : k = i
    · subst hk
      have hb : (k == k) = true := by simp
      have hrest : (setActiveFrom k (k + 1) cs).filter (fun c => c.active) = [] := by
        rw [List.filter_eq_nil_iff]
        intro a ha
        have := setActiveFrom_not_active k cs (k + 1) (by omega) a ha
        simp [this]
      simp [setActiveFrom, List.filter_cons, hb, hrest]
    · have hb : (k == i) = false := by
        simp only [beq_eq_false_iff_ne, ne_eq]
        omega
      have hlen : i < (k + 1) + cs.length := by
        simp only [List.length_cons] at h2
        omega
      have hrec := ih (k + 1) (by omega) hlen
      simp [setActiveFrom, List.filter_cons, hb, hrec]

theorem setActiveFrom_length (i k : Nat) (cs : List ChipDom) :
    (setActiveFrom i k cs).length = cs.length := by
  induction cs generalizing k with
  | nil => rfl
  | cons c cs ih => simp [setActiveFrom, ih]

theorem setActiveFrom_getElem? (i k j : Nat) (cs : List ChipDom) :
    (setActiveFrom i k cs)[j]? =
      (cs[j]?).map fun c => { c with active := (k + j) == i } := by
  induction cs generalizing k j with
  | nil => simp [setActiveFrom]
  | cons c cs ih =>
    cases j with
    | zero => simp [setActiveFrom]
    | succ j =>
      simp only [setActiveFrom, List.getElem?_cons_succ, ih (k + 1) j]
      have h : k + 1 + j = k + (j + 1) := by omega
      rw [h]

/-- C10: an assistant message holding at most one `.build-chips-wrapper`
holds exactly one after `createBuildChipsArea` runs (the first existing
wrapper is removed before the fresh one is appended); and after a click on
the chip at index `i`, exactly one chip in the row carries the `active`
class — the clicked one — while the details pane holds that chip's stored
block HTML and is visible. -/
theorem c10_single_wrapper_single_active (msg : AssistantMsgDom)
    (w : WrapperDom) (i : Nat)
    (hmsg : msg.wrappers.length ≤ 1)
    (hi : i < w.chips.length) (hd : i < w.detailBlocks.length) :
    (createBuildChipsArea msg).wrappers.length = 1 ∧
      ((clickChip w i).chips.filter (fun c => c.active)).length = 1 ∧
      (∀ j (hj : j < (clickChip w i).chips.length),
        ((clickChip w i).chips.get ⟨j, hj⟩).active = true ↔ j = i) ∧
      (clickChip w i).detailsContent = w.detailBlocks.get ⟨i, hd⟩ ∧
      (clickChip w i).detailsVisible = true := by
  refine ⟨?_, ?_, ?_, ?_, rfl⟩
  · rcases hw : msg.wrappers with _ | ⟨w0, ws⟩
    · simp [createBuildChipsArea, hw]
    · rw [hw] at hmsg
      simp only [List.length_cons] at hmsg
      have hws : ws = [] := by
        cases ws with
        | nil => rfl
        | cons a l => simp at hmsg
      subst hws
      simp [createBuildChipsArea, hw]
  · exact setActiveFrom_filter_one i w.chips 0 (by omega) (by omega)
  · intro j hj
    have hj' : j < w.chips.length := by
      have h := hj
      simp only [clickChip] at h
      rw [setActiveFrom_length] at h
      exact h
    have hq := setActiveFrom_getElem? i 0 j w.chips
    rw [List.getElem?_eq_getElem hj'] at hq
    have hj2 : j < (setActiveFrom i 0 w.chips).length := by
      rw [setActiveFrom_length]
      exact hj'
    rw [List.getElem?_eq_getElem hj2] at hq
    simp only [Option.map_some'] at hq
    have hval : (setActiveFrom i 0 w.chips)[j] =
        { w.chips[j] with active := (0 + j) == i } := by
      exact Option.some_injective _ hq
    show ((setActiveFrom i 0 w.chips).get ⟨j, hj2⟩).active = true ↔ j = i
    rw [List.get_eq_getElem, hval]
    simp only [Nat.zero_add, beq_iff_eq]
  · show w.detailBlocks.getD i "" = w.detailBlocks.get ⟨i, hd⟩
    rw [List.getD_eq_getElem?_getD, List.getElem?_eq_getElem hd]
    rfl

/-- Witness for C10: a one-wrapper message, and a click on chip 1 of a
two-chip wrapper. -/
theorem c10_single_wrapper_single_active_holds :
    (createBuildChipsArea { wrappers := [emptyWrapper] }).wrappers.length = 1 ∧
      ((clickChip
          { chips := [{ label := "Build 1", active := true },
                      { label := "Build 2", active := false }],
            detailBlocks := ["<div>a</div>", "<div>b</div>"],
            detailsContent := "", detailsVisible := false } 1).chips.filter
        (fun c => c.active)).length = 1 ∧
      (∀ j (hj : j < (clickChip
          { chips := [{ label := "Build 1", active := true },
                      { label := "Build 2", active := false }],
            detailBlocks := ["<div>a</div>", "<div>b</div>"],
            detailsContent := "", detailsVisible := false } 1).chips.length),
        ((clickChip
          { chips := [{ label := "Build 1", active := true },
                      { label := "Build 2", active := false }],
            detailBlocks := ["<div>a</div>", "<div>b</div>"],
            detailsContent := "", detailsVisible := false } 1).chips.get
            ⟨j, hj⟩).active = true ↔ j = 1) ∧
      (clickChip
          { chips := [{ label := "Build 1", active := true },
                      { label := "Build 2", active := false }],
            detailBlocks := ["<div>a</div>", "<div>b</div>"],
            detailsContent := "", detailsVisible := false } 1).detailsContent =
        (["<div>a</div>", "<div>b</div>"] : List String).get ⟨1, by decide⟩ ∧
      (clickChip
          { chips := [{ label := "Build 1", active := true },
                      { label := "Build 2", active := false }],
            detailBlocks := ["<div>a</div>", "<div>b</div>"],
            detailsContent := "", detailsVisible := false } 1).detailsVisible = true :=
  c10_single_wrapper_single_active { wrappers := [emptyWrapper] }
    { chips := [{ label := "Build 1", active := true },
                { label := "Build 2", active := false }],
      detailBlocks := ["<div>a</div>", "<div>b</div>"],
      detailsContent := "", detailsVisible := false } 1
    (by decide) (by decide) (by decide)

/-- Each guarded `sendQuery` call issues exactly one request and each
rejected call issues none: the link between the `sendQueryTrace` model and
the per-submission increment of the event-loop model. -/
theorem posts_count_matches_startsRequest (n0 : Nat) (parse : String → Node)
    (ip th : Bool) (q : String) (oc : FetchOutcome) :
    (postsOf (sendQueryTrace n0 parse ip th (some q) oc)).length =
      if startsRequest q then 1 else 0 := by
  by_cases hs : (q == "" || jsTrim q == "") = true
  · have h0 : sendQueryTrace n0 parse ip th (some q) oc = [] := by
      simp [sendQueryTrace, hs]
    simp [h0, postsOf, startsRequest, hs]
  · have hs' : (q == "" || jsTrim q == "") = false := by
      simpa using hs
    rw [postsOf_sendQueryTrace n0 parse ip th q oc hs']
    simp [startsRequest, hs']

/-- C7 as stated is false on the code: nothing prevents a second POST
while one is in flight.  The concrete event list — two non-blank
submissions with no settlement between them — is processed validly (every
settlement retires an in-flight request; there are none) yet leaves two
requests outstanding at once. -/
theorem c7_two_posts_in_flight :
    validFrom 0 [UiEvent.submit "a", UiEvent.submit "b"] = true ∧
      pendingAfter 0 [UiEvent.submit "a", UiEvent.submit "b"] = 2 ∧
      ¬ (∀ es : List UiEvent, validFrom 0 es = true → pendingAfter 0 es ≤ 1) := by
  refine ⟨by decide, by decide, ?_⟩
  intro h
  have h2 : pendingAfter 0 [UiEvent.submit "a", UiEvent.submit "b"] = 2 := by decide
  have h1 := h [UiEvent.submit "a", UiEvent.submit "b"] (by decide)
  omega

/-- C7 amended: the listeners never consult pending-request state, so each
submission that passes the blank-query guard issues its POST immediately,
pending requests or not; over any validly processed event list the number
of outstanding requests plus the number of settlements equals the number
of guard-passing submissions — in particular two back-to-back submissions
leave two POSTs in flight. -/
theorem c7_outstanding_equals_starts_minus_completes (es : List UiEvent)
    (hv : validFrom 0 es = true) :
    pendingAfter 0 es + countCompletes es = countStarts es := by
  have key : ∀ (l : List UiEvent) (p : Nat), validFrom p l = true →
      pendingAfter p l + countCompletes l = p + countStarts l := by
    intro l
    induction l with
    | nil =>
      intro p _
      simp [pendingAfter, countCompletes, countStarts]
    | cons e l ih =>
      intro p hvp
      cases e with
      | submit q =>
        simp only [validFrom] at hvp
        simp only [pendingAfter, countCompletes, countStarts]
        have hrec := ih _ hvp
        by_cases hs : startsRequest q = true <;> simp [hs] at hrec ⊢ <;> omega
      | complete =>
        simp only [validFrom, Bool.and_eq_true, decide_eq_true_eq] at hvp
        simp only [pendingAfter, countCompletes, countStarts]
        have hrec := ih _ hvp.2
        have hp := hvp.1
        omega
  have h := key es 0 hv
  simpa using h

/-- Witness for the amended C7 at a concrete event list: a submission, its
settlement, a blank submission, then another submission. -/
theorem c7_outstanding_equals_starts_minus_completes_holds :
    pendingAfter 0 [UiEvent.submit "a", UiEvent.complete, UiEvent.submit " ",
        UiEvent.submit "b"] +
      countCompletes [UiEvent.submit "a", UiEvent.complete, UiEvent.submit " ",
        UiEvent.submit "b"] =
      countStarts [UiEvent.submit "a", UiEvent.complete, UiEvent.submit " ",
        UiEvent.submit "b"] :=
  c7_outstanding_equals_starts_minus_completes
    [UiEvent.submit "a", UiEvent.complete, UiEvent.submit " ", UiEvent.submit "b"]
    (by decide)
